import Mathlib

/-!
Verification of the evaluation core of Solvee (src/solvee.py).

The subject is `SolveeCalculator.calculate` (lines 154-207) together with
`SolveeCalculator.format_result` (lines 209-216).  The method splits the
document on newline characters, threads a mutable scope (seeded from the
`math` module, line 165) through the lines in order, and appends exactly one
result string per line: blank lines give the empty string; a line containing
the marker `==` is split at its first occurrence into a left expression and a
target name which must satisfy `str.isidentifier`; other lines are evaluated
as plain expressions; every exception raised during evaluation is caught at
the per-line boundary and converted to the empty string.

Expression evaluation in the source is delegated to Python `eval` (lines 183
and 194), which is external to this repository; the expression language is
embedded here following the grammar of spec section 4.1 (numbers,
identifiers, function calls, parentheses, `+ - * / % **` with `^` rewritten
to `**` beforehand by the source).  Python integers are embedded as `Int`
and Python floats as exact rationals (`Rat`); the IEEE-754 rounding of float
literals and of transcendental functions is not modelled, and the IEEE
special values `inf`/`nan` are omitted.
-/

namespace Solvee

/-- Python `str` whitespace characters (ASCII range), as stripped by
`line.strip()` in src/solvee.py line 168. -/
def isPySpace (c : Char) : Bool :=
  c = ' ' || c = '\t' || c = '\n' || c = '\r' || c = '\x0b' || c = '\x0c'

/-- Python `line.strip()` (src/solvee.py line 168): drop whitespace from both
ends of the string. -/
def pyStrip (s : String) : String :=
  String.mk (((s.data.dropWhile isPySpace).reverse.dropWhile isPySpace).reverse)

/-- Python `input_text.split` on the newline character (src/solvee.py
line 160): the empty text yields one empty line, and every newline character
starts a fresh line. -/
def splitNl : List Char → List (List Char)
  | [] => [[]]
  | c :: cs =>
    match splitNl cs with
    | [] => [[c]]
    | h :: t => if c = '\n' then [] :: h :: t else (c :: h) :: t

/-- The list of lines of a document, exactly as src/solvee.py line 160
computes it. -/
def pyLines (input : String) : List String :=
  (splitNl input.data).map String.mk

/-- Python `clean_line.split` at the first occurrence of the two-character
marker (src/solvee.py line 177): the pieces before and after the first
occurrence, or `none` when the marker is absent.  The `none`/`some`
distinction also decides the containment test of line 176. -/
def splitOnEqEq : List Char → Option (List Char × List Char)
  | '=' :: '=' :: rest => some ([], rest)
  | c :: cs => (splitOnEqEq cs).map (fun p => (c :: p.1, p.2))
  | [] => none

/-- Python `expr.replace` of the caret by a double star (src/solvee.py
lines 178 and 192); the pattern is a single character, so the replacement is
a character-wise expansion. -/
def replaceCaret (s : String) : String :=
  String.mk (s.data.flatMap (fun c => if c = '^' then ['*', '*'] else [c]))

/-- First character of a Python identifier (ASCII range): a letter or an
underscore. -/
def isIdentStart (c : Char) : Bool := c.isAlpha || c = '_'

/-- Continuation character of a Python identifier (ASCII range): a letter, a
digit or an underscore. -/
def isIdentChar (c : Char) : Bool := c.isAlphanum || c = '_'

/-- Python `var_name.isidentifier()` (src/solvee.py line 181), restricted to
the ASCII range: nonempty, starting with a letter or underscore, continuing
with letters, digits or underscores.  Python keywords also satisfy
`isidentifier`, and accordingly no keyword check appears here. -/
def pyIsIdentifier (s : String) : Bool :=
  match s.data with
  | [] => false
  | c :: cs => isIdentStart c && cs.all isIdentChar

/-- Runtime values of the evaluator: Python ints (unbounded), Python floats
(embedded as exact rationals), and the function objects of the `math` module
which live in the same scope dict (src/solvee.py line 165). -/
inductive ScopeVal where
  | int (n : ℤ)
  | float (q : ℚ)
  | fn (fname : String)
deriving DecidableEq

/-- The scope dict of src/solvee.py line 165: name-to-value bindings.  The
dict is modelled as an association list where insertion prepends and lookup
takes the first match, which reproduces dict lookup after overwrites. -/
abbrev Scope := List (String × ScopeVal)

/-- Dict lookup: the most recently inserted binding of the name wins. -/
def lookupScope (name : String) : Scope → Option ScopeVal
  | [] => none
  | (k, v) :: rest => if k = name then some v else lookupScope name rest

/-- Dict store `scope[var_name] = val` (src/solvee.py line 184). -/
def insertScope (name : String) (v : ScopeVal) (s : Scope) : Scope :=
  (name, v) :: s

/-- Python `int(val)` on a float value: truncation toward zero
(src/solvee.py line 215). -/
def pyTrunc (q : ℚ) : ℤ := if 0 ≤ q then ⌊q⌋ else ⌈q⌉

/-- Round the fraction of two integers (positive denominator) to the
nearest integer, ties to even: the rounding used by Python fixed-point
float formatting.  The remainder is compared against one half through the
scaled difference, keeping all arithmetic on integers. -/
def roundHalfEvenInt (a d : ℤ) : ℤ :=
  if 2 * (a - a.fdiv d * d) < d then a.fdiv d
  else if d < 2 * (a - a.fdiv d * d) then a.fdiv d + 1
  else if a.fdiv d % 2 = 0 then a.fdiv d else a.fdiv d + 1

/-- The absolute value of a rational scaled by one hundred and rounded half
to even: the number of cents rendered by the two-decimal format. -/
def centsOf (q : ℚ) : ℕ :=
  (roundHalfEvenInt (100 * (if q < 0 then -q.num else q.num)) (q.den : ℤ)).toNat

/-- The two-decimal rendering of the Python format string in src/solvee.py
line 215, on the rational embedding of the float: sign, integer part, a dot,
and exactly two fractional digits after round-half-to-even. -/
def formatFixed2 (q : ℚ) : String :=
  (if q < 0 then "-" else "")
    ++ toString (centsOf q / 100)
    ++ "."
    ++ (if centsOf q % 100 < 10 then "0" else "")
    ++ toString (centsOf q % 100)

/-- `SolveeCalculator.format_result` (src/solvee.py lines 209-216): ints and
floats whose value equals its own truncation render as the plain integer
string; other floats render with exactly two decimal places; values that are
neither int nor float (the function objects living in the scope) render as
the empty string. -/
def format_result (v : ScopeVal) : String :=
  match v with
  | ScopeVal.int n => toString n
  | ScopeVal.float q =>
    if q = ((pyTrunc q : ℤ) : ℚ) then toString (pyTrunc q) else formatFixed2 q
  | ScopeVal.fn _ => ""

/-- Lexical tokens of the expression grammar of spec section 4.1.  The power
operator token is the double star, since src/solvee.py lines 178 and 192
replace every caret by a double star before evaluation. -/
inductive Token where
  | int (n : ℕ)
  | float (q : ℚ)
  | ident (s : String)
  | plus
  | minus
  | star
  | slash
  | percent
  | pow
  | lparen
  | rparen
  | comma
deriving DecidableEq

/-- Longest prefix of characters satisfying a predicate, with the rest. -/
def spanP (p : Char → Bool) : List Char → List Char × List Char
  | [] => ([], [])
  | c :: cs => if p c then ((c :: (spanP p cs).1), (spanP p cs).2) else ([], c :: cs)

/-- Decimal value of a digit string. -/
def natOfDigits (ds : List Char) : ℕ :=
  ds.foldl (fun a c => 10 * a + (c.toNat - 48)) 0

/-- Value of a float literal with integer digits and fractional digits. -/
def floatOfDigits (ds fs : List Char) : ℚ :=
  (natOfDigits ds : ℚ) + (natOfDigits fs : ℚ) / (10 : ℚ) ^ fs.length

/-- Modelled from the spec: the tokenizer of the grammar in spec section 4.1
(number literals with an optional fractional part, identifiers, operators,
parentheses, commas of argument lists).  src/solvee.py delegates expression
evaluation to Python `eval` (lines 183 and 194), which is external to the
repository.  A character outside the grammar (for example a degree sign) is
a lexical error, exactly as it raises `SyntaxError` in Python `eval`.  The
fuel argument only bounds the recursion; one more than the character count
always suffices since every step consumes at least one character. -/
def tokenize (fuel : ℕ) (l : List Char) : Option (List Token) :=
  match fuel, l with
  | 0, _ => none
  | _ + 1, [] => some []
  | f + 1, c :: cs =>
    if c = ' ' || c = '\t' then tokenize f cs
    else if isIdentStart c then
      (tokenize f (spanP isIdentChar (c :: cs)).2).map
        (fun ts => Token.ident (String.mk (spanP isIdentChar (c :: cs)).1) :: ts)
    else if c.isDigit then
      match (spanP Char.isDigit (c :: cs)).2 with
      | '.' :: rest2 =>
        (tokenize f (spanP Char.isDigit rest2).2).map
          (fun ts =>
            Token.float
              (floatOfDigits (spanP Char.isDigit (c :: cs)).1 (spanP Char.isDigit rest2).1) :: ts)
      | _ =>
        (tokenize f (spanP Char.isDigit (c :: cs)).2).map
          (fun ts => Token.int (natOfDigits (spanP Char.isDigit (c :: cs)).1) :: ts)
    else if c = '.' && (cs.headD ' ').isDigit then
      (tokenize f (spanP Char.isDigit cs).2).map
        (fun ts => Token.float (floatOfDigits [] (spanP Char.isDigit cs).1) :: ts)
    else if c = '*' then
      match cs with
      | '*' :: cs2 => (tokenize f cs2).map (fun ts => Token.pow :: ts)
      | _ => (tokenize f cs).map (fun ts => Token.star :: ts)
    else if c = '+' then (tokenize f cs).map (fun ts => Token.plus :: ts)
    else if c = '-' then (tokenize f cs).map (fun ts => Token.minus :: ts)
    else if c = '/' then (tokenize f cs).map (fun ts => Token.slash :: ts)
    else if c = '%' then (tokenize f cs).map (fun ts => Token.percent :: ts)
    else if c = '(' then (tokenize f cs).map (fun ts => Token.lparen :: ts)
    else if c = ')' then (tokenize f cs).map (fun ts => Token.rparen :: ts)
    else if c = ',' then (tokenize f cs).map (fun ts => Token.comma :: ts)
    else none

/-- Expression trees of the grammar in spec section 4.1. -/
inductive Expr where
  | intLit (n : ℕ)
  | floatLit (q : ℚ)
  | var (name : String)
  | call (fname : String) (args : List Expr)
  | neg (a : Expr)
  | add (a b : Expr)
  | sub (a b : Expr)
  | mul (a b : Expr)
  | div (a b : Expr)
  | mod (a b : Expr)
  | pow (a b : Expr)

mutual

/-- Modelled from the spec: recursive-descent parser for the grammar of spec
section 4.1, additive level (lowest precedence). -/
def parseAddSub (fuel : ℕ) (ts : List Token) : Option (Expr × List Token) :=
  match fuel with
  | 0 => none
  | f + 1 =>
    match parseMulDiv f ts with
    | some (a, r) => parseAddSubLoop f a r
    | none => none

/-- Left-associative chaining of additive operators. -/
def parseAddSubLoop (fuel : ℕ) (a : Expr) (ts : List Token) :
    Option (Expr × List Token) :=
  match fuel with
  | 0 => none
  | f + 1 =>
    match ts with
    | Token.plus :: r =>
      match parseMulDiv f r with
      | some (b, r2) => parseAddSubLoop f (Expr.add a b) r2
      | none => none
    | Token.minus :: r =>
      match parseMulDiv f r with
      | some (b, r2) => parseAddSubLoop f (Expr.sub a b) r2
      | none => none
    | _ => some (a, ts)

/-- Multiplicative level: multiplication, true division, modulo. -/
def parseMulDiv (fuel : ℕ) (ts : List Token) : Option (Expr × List Token) :=
  match fuel with
  | 0 => none
  | f + 1 =>
    match parseUnary f ts with
    | some (a, r) => parseMulDivLoop f a r
    | none => none

/-- Left-associative chaining of multiplicative operators. -/
def parseMulDivLoop (fuel : ℕ) (a : Expr) (ts : List Token) :
    Option (Expr × List Token) :=
  match fuel with
  | 0 => none
  | f + 1 =>
    match ts with
    | Token.star :: r =>
      match parseUnary f r with
      | some (b, r2) => parseMulDivLoop f (Expr.mul a b) r2
      | none => none
    | Token.slash :: r =>
      match parseUnary f r with
      | some (b, r2) => parseMulDivLoop f (Expr.div a b) r2
      | none => none
    | Token.percent :: r =>
      match parseUnary f r with
      | some (b, r2) => parseMulDivLoop f (Expr.mod a b) r2
      | none => none
    | _ => some (a, ts)

/-- Unary minus, binding between the multiplicative level and the power
level as in spec section 4.1. -/
def parseUnary (fuel : ℕ) (ts : List Token) : Option (Expr × List Token) :=
  match fuel with
  | 0 => none
  | f + 1 =>
    match ts with
    | Token.minus :: r =>
      match parseUnary f r with
      | some (a, r2) => some (Expr.neg a, r2)
      | none => none
    | _ => parsePower f ts

/-- Exponentiation, right-associative with a unary expression as exponent. -/
def parsePower (fuel : ℕ) (ts : List Token) : Option (Expr × List Token) :=
  match fuel with
  | 0 => none
  | f + 1 =>
    match parsePrimary f ts with
    | some (a, r) =>
      match r with
      | Token.pow :: r2 =>
        match parseUnary f r2 with
        | some (b, r3) => some (Expr.pow a b, r3)
        | none => none
      | _ => some (a, r)
    | none => none

/-- Primary expressions: literals, identifiers, function calls,
parenthesized expressions. -/
def parsePrimary (fuel : ℕ) (ts : List Token) : Option (Expr × List Token) :=
  match fuel with
  | 0 => none
  | f + 1 =>
    match ts with
    | Token.int n :: r => some (Expr.intLit n, r)
    | Token.float q :: r => some (Expr.floatLit q, r)
    | Token.ident s :: Token.lparen :: r =>
      match parseArgs f r with
      | some (args, r2) => some (Expr.call s args, r2)
      | none => none
    | Token.ident s :: r => some (Expr.var s, r)
    | Token.lparen :: r =>
      match parseAddSub f r with
      | some (a, r2) =>
        match r2 with
        | Token.rparen :: r3 => some (a, r3)
        | _ => none
      | none => none
    | _ => none

/-- Argument list of a call, after the opening parenthesis. -/
def parseArgs (fuel : ℕ) (ts : List Token) :
    Option (List Expr × List Token) :=
  match fuel with
  | 0 => none
  | f + 1 =>
    match ts with
    | Token.rparen :: r => some ([], r)
    | _ =>
      match parseAddSub f ts with
      | some (a, r) => parseArgsLoop f [a] r
      | none => none

/-- Comma-separated continuation of an argument list. -/
def parseArgsLoop (fuel : ℕ) (acc : List Expr) (ts : List Token) :
    Option (List Expr × List Token) :=
  match fuel with
  | 0 => none
  | f + 1 =>
    match ts with
    | Token.comma :: r =>
      match parseAddSub f r with
      | some (a, r2) => parseArgsLoop f (acc ++ [a]) r2
      | none => none
    | Token.rparen :: r => some (acc, r)
    | _ => none

end

/-- Parse a full expression string: tokenize, parse, and require that every
token is consumed.  The fuel formulas strictly dominate the recursion depth
of the tokenizer and of the parser on the given input. -/
def parseStr (expr : String) : Option Expr :=
  match tokenize (expr.data.length + 1) expr.data with
  | none => none
  | some ts =>
    match parseAddSub (10 * ts.length + 10) ts with
    | some (e, []) => some e
    | _ => none

/-- Numeric view of a value: ints and floats have one, functions do not
(using a function as an operand raises TypeError in Python, which the model
renders as failure). -/
def asQ : ScopeVal → Option ℚ
  | ScopeVal.int n => some (n : ℚ)
  | ScopeVal.float q => some q
  | ScopeVal.fn _ => none

/-- Python addition: int with int stays int, any float operand promotes the
result to float. -/
def addVals : ScopeVal → ScopeVal → Option ScopeVal
  | ScopeVal.int m, ScopeVal.int n => some (ScopeVal.int (m + n))
  | a, b =>
    match asQ a, asQ b with
    | some x, some y => some (ScopeVal.float (x + y))
    | _, _ => none

/-- Python subtraction, with the same promotion rule as addition. -/
def subVals : ScopeVal → ScopeVal → Option ScopeVal
  | ScopeVal.int m, ScopeVal.int n => some (ScopeVal.int (m - n))
  | a, b =>
    match asQ a, asQ b with
    | some x, some y => some (ScopeVal.float (x - y))
    | _, _ => none

/-- Python multiplication, with the same promotion rule as addition. -/
def mulVals : ScopeVal → ScopeVal → Option ScopeVal
  | ScopeVal.int m, ScopeVal.int n => some (ScopeVal.int (m * n))
  | a, b =>
    match asQ a, asQ b with
    | some x, some y => some (ScopeVal.float (x * y))
    | _, _ => none

/-- Python true division: the result is always a float, and a zero divisor
raises ZeroDivisionError, modelled as failure. -/
def divVals (a b : ScopeVal) : Option ScopeVal :=
  match asQ a, asQ b with
  | some x, some y => if y = 0 then none else some (ScopeVal.float (x / y))
  | _, _ => none

/-- Python modulo: floor-style remainder whose sign follows the divisor;
int with int stays int; a zero divisor is failure. -/
def modVals : ScopeVal → ScopeVal → Option ScopeVal
  | ScopeVal.int m, ScopeVal.int n =>
    if n = 0 then none else some (ScopeVal.int (Int.fmod m n))
  | a, b =>
    match asQ a, asQ b with
    | some x, some y =>
      if y = 0 then none
      else some (ScopeVal.float (x - y * (⌊x / y⌋ : ℚ)))
    | _, _ => none

/-- Python exponentiation: int base with nonnegative int exponent stays int;
a negative int exponent promotes to float; 0 to a negative power is failure.
A float exponent with nonzero fractional part denotes a real-valued power
with no exact rational image, modelled as failure. -/
def powVals : ScopeVal → ScopeVal → Option ScopeVal
  | ScopeVal.int m, ScopeVal.int n =>
    if 0 ≤ n then some (ScopeVal.int (m ^ n.toNat))
    else if m = 0 then none
    else some (ScopeVal.float ((1 : ℚ) / (m : ℚ) ^ n.natAbs))
  | a, b =>
    match asQ a, asQ b with
    | some x, some y =>
      if y.den = 1 then
        if 0 ≤ y.num then some (ScopeVal.float (x ^ y.num.toNat))
        else if x = 0 then none
        else some (ScopeVal.float ((1 : ℚ) / x ^ y.num.natAbs))
      else none
    | _, _ => none

/-- Python unary minus: negates a number, fails on a function operand. -/
def negVal : ScopeVal → Option ScopeVal
  | ScopeVal.int n => some (ScopeVal.int (-n))
  | ScopeVal.float q => some (ScopeVal.float (-q))
  | ScopeVal.fn _ => none

/-- Modelled from the spec: application of a builtin function of the `math`
module (spec sections 4.1 and 6).  src/solvee.py applies these through
Python `eval`, external to the repository.  The functions whose exact value
is rational are computed exactly; the transcendental functions produce
irrational reals with no image in the rational value model, so their
application is modelled as failure, as is a wrong argument count (the
ArityMismatch of spec section 7). -/
def applyBuiltin (fname : String) (args : List ScopeVal) : Option ScopeVal :=
  match fname, args with
  | "floor", [v] => (asQ v).map (fun q => ScopeVal.int ⌊q⌋)
  | "ceil", [v] => (asQ v).map (fun q => ScopeVal.int ⌈q⌉)
  | "trunc", [v] => (asQ v).map (fun q => ScopeVal.int (pyTrunc q))
  | "fabs", [v] => (asQ v).map (fun q => ScopeVal.float |q|)
  | _, _ => none

/-- The initial scope of src/solvee.py line 165: every member of the `math`
module whose name does not start with a double underscore (Python 3.11 set).
The constants `pi`, `e`, `tau` carry the exact rational value of their
IEEE-754 double; `inf` and `nan` have no rational embedding and are omitted
from the model (no claim involves them). -/
def builtinScope : Scope :=
  [("acos", ScopeVal.fn "acos"), ("acosh", ScopeVal.fn "acosh"),
   ("asin", ScopeVal.fn "asin"), ("asinh", ScopeVal.fn "asinh"),
   ("atan", ScopeVal.fn "atan"), ("atan2", ScopeVal.fn "atan2"),
   ("atanh", ScopeVal.fn "atanh"), ("cbrt", ScopeVal.fn "cbrt"),
   ("ceil", ScopeVal.fn "ceil"), ("comb", ScopeVal.fn "comb"),
   ("copysign", ScopeVal.fn "copysign"), ("cos", ScopeVal.fn "cos"),
   ("cosh", ScopeVal.fn "cosh"), ("degrees", ScopeVal.fn "degrees"),
   ("dist", ScopeVal.fn "dist"),
   ("e", ScopeVal.float (6121026514868073 / 2251799813685248 : ℚ)),
   ("erf", ScopeVal.fn "erf"), ("erfc", ScopeVal.fn "erfc"),
   ("exp", ScopeVal.fn "exp"), ("exp2", ScopeVal.fn "exp2"),
   ("expm1", ScopeVal.fn "expm1"), ("fabs", ScopeVal.fn "fabs"),
   ("factorial", ScopeVal.fn "factorial"), ("floor", ScopeVal.fn "floor"),
   ("fmod", ScopeVal.fn "fmod"), ("frexp", ScopeVal.fn "frexp"),
   ("fsum", ScopeVal.fn "fsum"), ("gamma", ScopeVal.fn "gamma"),
   ("gcd", ScopeVal.fn "gcd"), ("hypot", ScopeVal.fn "hypot"),
   ("isclose", ScopeVal.fn "isclose"), ("isfinite", ScopeVal.fn "isfinite"),
   ("isinf", ScopeVal.fn "isinf"), ("isnan", ScopeVal.fn "isnan"),
   ("isqrt", ScopeVal.fn "isqrt"), ("lcm", ScopeVal.fn "lcm"),
   ("ldexp", ScopeVal.fn "ldexp"), ("lgamma", ScopeVal.fn "lgamma"),
   ("log", ScopeVal.fn "log"), ("log10", ScopeVal.fn "log10"),
   ("log1p", ScopeVal.fn "log1p"), ("log2", ScopeVal.fn "log2"),
   ("modf", ScopeVal.fn "modf"), ("nextafter", ScopeVal.fn "nextafter"),
   ("perm", ScopeVal.fn "perm"),
   ("pi", ScopeVal.float (884279719003555 / 281474976710656 : ℚ)),
   ("pow", ScopeVal.fn "pow"), ("prod", ScopeVal.fn "prod"),
   ("radians", ScopeVal.fn "radians"), ("remainder", ScopeVal.fn "remainder"),
   ("sin", ScopeVal.fn "sin"), ("sinh", ScopeVal.fn "sinh"),
   ("sqrt", ScopeVal.fn "sqrt"),
   ("tan", ScopeVal.fn "tan"), ("tanh", ScopeVal.fn "tanh"),
   ("tau", ScopeVal.float (884279719003555 / 140737488355328 : ℚ)),
   ("trunc", ScopeVal.fn "trunc"), ("ulp", ScopeVal.fn "ulp")]

mutual

/-- Modelled from the spec: evaluation of an expression tree against the
scope (spec sections 4.1 and 4.5); src/solvee.py performs this step through
Python `eval` (lines 183 and 194).  Identifiers resolve against the scope at
evaluation time; every failure (unknown identifier, calling a non-function,
arity mismatch, division by zero, domain error) is a `none`, which the
orchestrator turns into the empty result string. -/
def evalExpr (s : Scope) : Expr → Option ScopeVal
  | Expr.intLit n => some (ScopeVal.int (n : ℤ))
  | Expr.floatLit q => some (ScopeVal.float q)
  | Expr.var name => lookupScope name s
  | Expr.call fname args =>
    match lookupScope fname s with
    | some (ScopeVal.fn g) =>
      match evalArgs s args with
      | some vs => applyBuiltin g vs
      | none => none
    | _ => none
  | Expr.neg a =>
    match evalExpr s a with
    | some v => negVal v
    | none => none
  | Expr.add a b =>
    match evalExpr s a, evalExpr s b with
    | some x, some y => addVals x y
    | _, _ => none
  | Expr.sub a b =>
    match evalExpr s a, evalExpr s b with
    | some x, some y => subVals x y
    | _, _ => none
  | Expr.mul a b =>
    match evalExpr s a, evalExpr s b with
    | some x, some y => mulVals x y
    | _, _ => none
  | Expr.div a b =>
    match evalExpr s a, evalExpr s b with
    | some x, some y => divVals x y
    | _, _ => none
  | Expr.mod a b =>
    match evalExpr s a, evalExpr s b with
    | some x, some y => modVals x y
    | _, _ => none
  | Expr.pow a b =>
    match evalExpr s a, evalExpr s b with
    | some x, some y => powVals x y
    | _, _ => none

/-- Strict left-to-right evaluation of the arguments of a call. -/
def evalArgs (s : Scope) : List Expr → Option (List ScopeVal)
  | [] => some []
  | e :: es =>
    match evalExpr s e, evalArgs s es with
    | some v, some vs => some (v :: vs)
    | _, _ => none

end

/-- Full expression-string evaluation: parse, then evaluate.  This is the
model of `eval(expr, ..., scope)` in src/solvee.py lines 183 and 194. -/
def evalStr (s : Scope) (expr : String) : Option ScopeVal :=
  match parseStr expr with
  | some e => evalExpr s e
  | none => none

mutual

/-- All identifiers referenced by an expression, including called function
names. -/
def varsOf : Expr → List String
  | Expr.intLit _ => []
  | Expr.floatLit _ => []
  | Expr.var name => [name]
  | Expr.call fname args => fname :: varsOfList args
  | Expr.neg a => varsOf a
  | Expr.add a b => varsOf a ++ varsOf b
  | Expr.sub a b => varsOf a ++ varsOf b
  | Expr.mul a b => varsOf a ++ varsOf b
  | Expr.div a b => varsOf a ++ varsOf b
  | Expr.mod a b => varsOf a ++ varsOf b
  | Expr.pow a b => varsOf a ++ varsOf b

/-- All identifiers referenced by a list of expressions. -/
def varsOfList : List Expr → List String
  | [] => []
  | e :: es => varsOf e ++ varsOfList es

end

/-- One iteration of the line loop of `SolveeCalculator.calculate`
(src/solvee.py lines 167-200): the result string for the line and the scope
passed on to the next line.  Blank lines yield the empty string; a line
containing the assignment marker is split at the first occurrence, the
target must be an identifier (otherwise the explicit error string of
line 187 is produced and nothing is evaluated); on success the value is
bound and formatted; any evaluation failure is caught and yields the empty
string with the scope unchanged (lines 197-200). -/
def processLine (s : Scope) (line : String) : String × Scope :=
  if pyStrip line = "" then ("", s)
  else
    match splitOnEqEq (pyStrip line).data with
    | some (eC, rC) =>
      if pyIsIdentifier (pyStrip (String.mk rC)) then
        match evalStr s (replaceCaret (pyStrip (String.mk eC))) with
        | some v =>
          (format_result v, insertScope (pyStrip (String.mk rC)) v s)
        | none => ("", s)
      else ("Error: Invalid Name", s)
    | none =>
      match evalStr s (replaceCaret (pyStrip line)) with
      | some v => (format_result v, s)
      | none => ("", s)

/-- The target name a line would assign to: the stripped text after the
first assignment marker, when the marker is present. -/
def targetOf (line : String) : Option String :=
  (splitOnEqEq (pyStrip line).data).map (fun p => pyStrip (String.mk p.2))

/-- The line loop of `SolveeCalculator.calculate` (src/solvee.py
lines 167-200): one result string per line, threading the scope forward. -/
def calcLines : Scope → List String → List String
  | _, [] => []
  | s, l :: rest => (processLine s l).1 :: calcLines (processLine s l).2 rest

/-- The scope after processing a list of lines, starting from a given
scope. -/
def scopeAfter (s : Scope) (ls : List String) : Scope :=
  ls.foldl (fun sc l => (processLine sc l).2) s

/-- `SolveeCalculator.calculate` (src/solvee.py lines 154-207) as a function
from the document text to the list of result strings: split on newlines,
seed the scope from the `math` module, process the lines in order. -/
def calculate (input : String) : List String :=
  calcLines builtinScope (pyLines input)

/-- A line whose stripped text splits at an assignment marker is not blank. -/
theorem pyStrip_ne_of_split (l : String) (p : List Char × List Char)
    (hsplit : splitOnEqEq (pyStrip l).data = some p) : pyStrip l ≠ "" := by
  intro h
  rw [h] at hsplit
  exact Option.noConfusion hsplit

/-- Truncation toward zero of an integer is the integer itself. -/
theorem pyTrunc_intCast (m : ℤ) : pyTrunc ((m : ℤ) : ℚ) = m := by
  unfold pyTrunc
  split
  · exact Int.floor_intCast m
  · exact Int.ceil_intCast m

/-- On a rational with denominator one, truncation returns the numerator. -/
theorem pyTrunc_eq_num (q : ℚ) (h : q.den = 1) : pyTrunc q = q.num := by
  have h2 : ((q.num : ℤ) : ℚ) = q := (Rat.den_eq_one_iff q).mp h
  conv_lhs => rw [← h2]
  exact pyTrunc_intCast q.num

/-- A float magnitude equals its own truncation exactly when its rational
embedding has denominator one. -/
theorem eq_pyTrunc_iff_den_eq_one (q : ℚ) :
    q = ((pyTrunc q : ℤ) : ℚ) ↔ q.den = 1 := by
  constructor
  · intro h
    rw [h]
    exact Rat.den_intCast _
  · intro h
    rw [pyTrunc_eq_num q h]
    exact ((Rat.den_eq_one_iff q).mp h).symm

mutual

/-- Strictness of evaluation: an expression referencing an identifier that
the scope does not bind fails to evaluate. -/
theorem evalExpr_unbound (s : Scope) (v : String)
    (hv : lookupScope v s = none) :
    (e : Expr) → v ∈ varsOf e → evalExpr s e = none
  | Expr.intLit n, h => by simp [varsOf] at h
  | Expr.floatLit q, h => by simp [varsOf] at h
  | Expr.var name, h => by
    simp [varsOf] at h
    subst h
    simpa [evalExpr] using hv
  | Expr.call fname args, h => by
    simp [varsOf] at h
    rcases h with h | h
    · subst h
      simp [evalExpr, hv]
    · have hargs := evalArgs_unbound s v hv args h
      cases hf : lookupScope fname s with
      | none => simp [evalExpr, hf]
      | some w =>
        cases w with
        | int n => simp [evalExpr, hf]
        | float q => simp [evalExpr, hf]
        | fn g => simp [evalExpr, hf, hargs]
  | Expr.neg a, h => by
    have ha := evalExpr_unbound s v hv a (by simpa [varsOf] using h)
    simp [evalExpr, ha]
  | Expr.add a b, h => by
    rcases List.mem_append.mp (by simpa [varsOf] using h) with h1 | h1
    · have ha := evalExpr_unbound s v hv a h1
      simp [evalExpr, ha]
    · have hb := evalExpr_unbound s v hv b h1
      cases ha : evalExpr s a <;> simp [evalExpr, ha, hb]
  | Expr.sub a b, h => by
    rcases List.mem_append.mp (by simpa [varsOf] using h) with h1 | h1
    · have ha := evalExpr_unbound s v hv a h1
      simp [evalExpr, ha]
    · have hb := evalExpr_unbound s v hv b h1
      cases ha : evalExpr s a <;> simp [evalExpr, ha, hb]
  | Expr.mul a b, h => by
    rcases List.mem_append.mp (by simpa [varsOf] using h) with h1 | h1
    · have ha := evalExpr_unbound s v hv a h1
      simp [evalExpr, ha]
    · have hb := evalExpr_unbound s v hv b h1
      cases ha : evalExpr s a <;> simp [evalExpr, ha, hb]
  | Expr.div a b, h => by
    rcases List.mem_append.mp (by simpa [varsOf] using h) with h1 | h1
    · have ha := evalExpr_unbound s v hv a h1
      simp [evalExpr, ha]
    · have hb := evalExpr_unbound s v hv b h1
      cases ha : evalExpr s a <;> simp [evalExpr, ha, hb]
  | Expr.mod a b, h => by
    rcases List.mem_append.mp (by simpa [varsOf] using h) with h1 | h1
    · have ha := evalExpr_unbound s v hv a h1
      simp [evalExpr, ha]
    · have hb := evalExpr_unbound s v hv b h1
      cases ha : evalExpr s a <;> simp [evalExpr, ha, hb]
  | Expr.pow a b, h => by
    rcases List.mem_append.mp (by simpa [varsOf] using h) with h1 | h1
    · have ha := evalExpr_unbound s v hv a h1
      simp [evalExpr, ha]
    · have hb := evalExpr_unbound s v hv b h1
      cases ha : evalExpr s a <;> simp [evalExpr, ha, hb]

/-- Strictness of argument evaluation: an argument list referencing an
identifier the scope does not bind fails to evaluate. -/
theorem evalArgs_unbound (s : Scope) (v : String)
    (hv : lookupScope v s = none) :
    (es : List Expr) → v ∈ varsOfList es → evalArgs s es = none
  | [], h => by simp [varsOfList] at h
  | e :: es, h => by
    rcases List.mem_append.mp (by simpa [varsOfList] using h) with h1 | h1
    · have he := evalExpr_unbound s v hv e h1
      simp [evalArgs, he]
    · have hes := evalArgs_unbound s v hv es h1
      cases he : evalExpr s e <;> simp [evalArgs, he, hes]

end

/-- Processing one line does not change what a name resolves to unless the
line is an assignment whose target is that very name. -/
theorem lookup_processLine_of_ne (s : Scope) (l : String) (name : String)
    (h : targetOf l ≠ some name) :
    lookupScope name (processLine s l).2 = lookupScope name s := by
  by_cases hb : pyStrip l = ""
  · simp [processLine, hb]
  · cases hsp : splitOnEqEq (pyStrip l).data with
    | none =>
      cases he : evalStr s (replaceCaret (pyStrip l)) <;>
        simp [processLine, hb, hsp, he]
    | some p =>
      obtain ⟨eC, rC⟩ := p
      have hne : pyStrip (String.mk rC) ≠ name := by
        intro hEq
        exact h (by simp [targetOf, hsp, hEq])
      by_cases hid : pyIsIdentifier (pyStrip (String.mk rC)) = true
      · cases he : evalStr s (replaceCaret (pyStrip (String.mk eC))) with
        | none => simp [processLine, hb, hsp, hid, he]
        | some v =>
          simp [processLine, hb, hsp, hid, he, insertScope, lookupScope, hne]
      · simp [processLine, hb, hsp, hid]

/-- The scope after no lines is the starting scope. -/
theorem scopeAfter_nil (s : Scope) : scopeAfter s [] = s := rfl

/-- The scope after a first line and further lines. -/
theorem scopeAfter_cons (s : Scope) (l : String) (ls : List String) :
    scopeAfter s (l :: ls) = scopeAfter (processLine s l).2 ls := rfl

/-- The line loop distributes over list append, threading the scope. -/
theorem calcLines_append (s : Scope) (a b : List String) :
    calcLines s (a ++ b) = calcLines s a ++ calcLines (scopeAfter s a) b := by
  induction a generalizing s with
  | nil => rfl
  | cons l rest ih => simp [calcLines, scopeAfter_cons, ih]

/-- A name no processed line assigns to resolves after those lines exactly
as it did before them. -/
theorem lookup_scopeAfter_of_ne (s : Scope) (ls : List String) (name : String)
    (h : ∀ l ∈ ls, targetOf l ≠ some name) :
    lookupScope name (scopeAfter s ls) = lookupScope name s := by
  induction ls generalizing s with
  | nil => rfl
  | cons l rest ih =>
    rw [scopeAfter_cons, ih _ (fun x hx => h x (List.mem_cons_of_mem _ hx)),
      lookup_processLine_of_ne s l name (h l (List.mem_cons_self _ _))]

/-- The line loop produces exactly one result string per line. -/
theorem calcLines_length (s : Scope) (ls : List String) :
    (calcLines s ls).length = ls.length := by
  induction ls generalizing s with
  | nil => rfl
  | cons l rest ih => simp [calcLines, ih]

/-- C1: for every input document, the evaluator returns exactly one result
string per input line, index-aligned with the input: the output list has the
same length as the list of lines of the document. -/
theorem calculate_length_eq (input : String) :
    (calculate input).length = (pyLines input).length :=
  calcLines_length builtinScope (pyLines input)

/-- C2: a line containing the assignment marker whose right-hand target (the
text after the first marker, stripped) is not a valid identifier produces
the explicit, visible error string of src/solvee.py line 187 for that line,
not the empty string, whatever the scope. -/
theorem invalid_target_error_string (s : Scope) (l : String)
    (eC rC : List Char)
    (hsplit : splitOnEqEq (pyStrip l).data = some (eC, rC))
    (hid : pyIsIdentifier (pyStrip (String.mk rC)) = false) :
    (processLine s l).1 = "Error: Invalid Name" ∧ (processLine s l).1 ≠ "" := by
  have hne : pyStrip l ≠ "" := pyStrip_ne_of_split l _ hsplit
  have h1 : (processLine s l).1 = "Error: Invalid Name" := by
    simp [processLine, hne, hsplit, hid]
  exact ⟨h1, by rw [h1]; decide⟩

/-- Witness for C2 at the spec's example line. -/
theorem invalid_target_error_string_witness :
    (processLine [] "5 == 2x").1 = "Error: Invalid Name" ∧
      (processLine [] "5 == 2x").1 ≠ "" :=
  invalid_target_error_string [] "5 == 2x" ['5', ' '] [' ', '2', 'x']
    (by decide) (by decide)

/-- C3: a non-blank line whose evaluation fails for any reason other than an
invalid assignment target yields the empty string for that line, and all
subsequent lines are still processed normally with the scope unchanged — no
failure on one line aborts the recompute or changes later lines. -/
theorem eval_failure_blank_and_continue (s : Scope) (l : String)
    (rest : List String) (hnb : pyStrip l ≠ "")
    (hfail :
      (splitOnEqEq (pyStrip l).data = none ∧
        evalStr s (replaceCaret (pyStrip l)) = none) ∨
      (∃ eC rC, splitOnEqEq (pyStrip l).data = some (eC, rC) ∧
        pyIsIdentifier (pyStrip (String.mk rC)) = true ∧
        evalStr s (replaceCaret (pyStrip (String.mk eC))) = none)) :
    calcLines s (l :: rest) = "" :: calcLines s rest := by
  have hp : processLine s l = ("", s) := by
    rcases hfail with ⟨hsp, he⟩ | ⟨eC, rC, hsp, hid, he⟩
    · simp [processLine, hnb, hsp, he]
    · simp [processLine, hnb, hsp, hid, he]
  simp [calcLines, hp]

/-- Witness for C3 at a division by zero followed by a normal line. -/
theorem eval_failure_blank_and_continue_witness :
    calcLines builtinScope ["1/0", "2 + 2"] =
      "" :: calcLines builtinScope ["2 + 2"] ∧
      calcLines builtinScope ["1/0", "2 + 2"] = ["", "4"] := by
  have h := eval_failure_blank_and_continue builtinScope "1/0" ["2 + 2"]
    (by decide) (Or.inl ⟨rfl, rfl⟩)
  exact ⟨h, h.trans (by decide)⟩

/-- C4 counterexample: the evaluator performs no percentage rewriting — the
three example lines of the claim each yield the empty string (a trailing
percent sign is Python's modulo operator with a missing operand, a syntax
error), not the claimed numeric strings. -/
theorem percent_sugar_counterexample :
    calculate "100 + 22%" = [""] ∧ calculate "100 + 22%" ≠ ["122"] ∧
      calculate "100 - 10%" = [""] ∧ calculate "100 - 10%" ≠ ["90"] ∧
      calculate "50%" = [""] ∧ calculate "50%" ≠ ["0.50"] := by
  refine ⟨rfl, ?_, rfl, ?_, rfl, ?_⟩ <;> decide

/-- C4 amended: no percentage rewriting happens; the percent sign is the
modulo operator, so a line ending in a percent sign is a syntax error and
each of the three percentage lines yields the empty string. -/
theorem percent_sugar_amended :
    calculate "100 + 22%" = [""] ∧ calculate "100 - 10%" = [""] ∧
      calculate "50%" = [""] :=
  ⟨rfl, rfl, rfl⟩

/-- C5 counterexample: there is no unit conversion — the degree character is
not part of the expression language, so the example line is a syntax error
and yields the empty string, not the claimed conversion result. -/
theorem unit_conversion_counterexample :
    calculate "0°C to fahrenheit" = [""] ∧
      calculate "0°C to fahrenheit" ≠ ["32.00 °F"] :=
  ⟨rfl, by decide⟩

/-- C5 amended: the evaluator has no unit-conversion subsystem; the line
with the degree symbol fails to evaluate and yields the empty string. -/
theorem unit_conversion_amended : calculate "0°C to fahrenheit" = [""] :=
  rfl

/-- C6: the two-line document of the spec: the assignment line evaluates its
left expression, binds the result to x, renders the formatted value, and the
later line resolves x from the accumulated scope. -/
theorem assignment_then_use : calculate "10 + 5 == x\nx * 2" = ["15", "30"] :=
  rfl

/-- C7: a line referencing a name that neither the builtins nor any
assignment on an earlier line binds yields the empty string for that line,
and the subsequent lines are processed with the scope unchanged: within one
recompute, a name resolves only to builtins or to bindings made by
assignments on strictly earlier lines. -/
theorem forward_reference_blank (pre post : List String) (line name : String)
    (e : Expr)
    (hsp : splitOnEqEq (pyStrip line).data = none)
    (hparse : parseStr (replaceCaret (pyStrip line)) = some e)
    (href : name ∈ varsOf e)
    (hnb : lookupScope name builtinScope = none)
    (hpre : ∀ l ∈ pre, targetOf l ≠ some name) :
    calcLines builtinScope (pre ++ line :: post) =
      calcLines builtinScope pre ++
        "" :: calcLines (scopeAfter builtinScope pre) post := by
  have hnb2 : lookupScope name (scopeAfter builtinScope pre) = none := by
    rw [lookup_scopeAfter_of_ne _ _ _ hpre, hnb]
  have hne : pyStrip line ≠ "" := by
    intro h
    rw [h] at hparse
    have h0 : parseStr (replaceCaret "") = none := rfl
    rw [h0] at hparse
    exact Option.noConfusion hparse
  have heval :
      evalStr (scopeAfter builtinScope pre) (replaceCaret (pyStrip line)) =
        none := by
    have hu := evalExpr_unbound (scopeAfter builtinScope pre) name hnb2 e href
    simp [evalStr, hparse, hu]
  have hp : processLine (scopeAfter builtinScope pre) line =
      ("", scopeAfter builtinScope pre) := by
    simp [processLine, hne, hsp, heval]
  rw [calcLines_append]
  simp [calcLines, hp]

/-- Witness for C7: q is referenced one line before its assignment and
yields the empty string there, while the same name resolves on the line
after the assignment. -/
theorem forward_reference_blank_witness :
    calcLines builtinScope ["q * 2", "3 == q", "q * 2"] = ["", "3", "6"] := by
  have h := forward_reference_blank [] ["3 == q", "q * 2"] "q * 2" "q"
    (Expr.mul (Expr.var "q") (Expr.intLit 2)) rfl rfl (by decide) (by decide)
    (by intro l hl; cases hl)
  exact h.trans (by decide)

/-- C8: a successful assignment stores the evaluated value under the
stripped target name, overwriting any prior builtin or variable of that
name: the line renders the formatted value, the subsequent lines are
processed in the extended scope, and in that scope the name resolves to the
assigned value no matter what it resolved to before. -/
theorem assignment_shadows_builtin (s : Scope) (l : String)
    (eC rC : List Char) (v : ScopeVal) (rest : List String)
    (hsplit : splitOnEqEq (pyStrip l).data = some (eC, rC))
    (hid : pyIsIdentifier (pyStrip (String.mk rC)) = true)
    (heval : evalStr s (replaceCaret (pyStrip (String.mk eC))) = some v) :
    calcLines s (l :: rest) =
      format_result v ::
        calcLines (insertScope (pyStrip (String.mk rC)) v s) rest ∧
      lookupScope (pyStrip (String.mk rC))
        (insertScope (pyStrip (String.mk rC)) v s) = some v := by
  have hne : pyStrip l ≠ "" := pyStrip_ne_of_split l _ hsplit
  have hp : processLine s l =
      (format_result v, insertScope (pyStrip (String.mk rC)) v s) := by
    simp [processLine, hne, hsplit, hid, heval]
  exact ⟨by simp [calcLines, hp], by simp [insertScope, lookupScope]⟩

/-- Witness for C8 at the spec's example: assigning 10 to pi shadows the
builtin constant, and the next line computes with the user's value. -/
theorem assignment_shadows_builtin_witness :
    calcLines builtinScope ["10 == pi", "pi + 1"] = ["10", "11"] ∧
      lookupScope "pi" (insertScope "pi" (ScopeVal.int 10) builtinScope) =
        some (ScopeVal.int 10) := by
  have h := assignment_shadows_builtin builtinScope "10 == pi" ['1', '0', ' ']
    [' ', 'p', 'i'] (ScopeVal.int 10) ["pi + 1"] (by decide) (by decide) rfl
  exact ⟨h.1.trans (by decide), h.2⟩

/-- C9: the formatter contract: an int renders as its plain decimal string;
a float magnitude equals its own truncation exactly when its rational
embedding has denominator one, in which case the float renders as the plain
integer string of that truncation, and otherwise it renders rounded to
exactly two decimal places. -/
theorem formatter_contract (n : ℤ) (q : ℚ) :
    format_result (ScopeVal.int n) = toString n ∧
      (q = ((pyTrunc q : ℤ) : ℚ) ↔ q.den = 1) ∧
      (q.den = 1 → format_result (ScopeVal.float q) = toString q.num) ∧
      (q.den ≠ 1 → format_result (ScopeVal.float q) = formatFixed2 q) := by
  refine ⟨rfl, eq_pyTrunc_iff_den_eq_one q, ?_, ?_⟩
  · intro h
    have hc : q = ((pyTrunc q : ℤ) : ℚ) := (eq_pyTrunc_iff_den_eq_one q).mpr h
    have h4 : format_result (ScopeVal.float q) = toString (pyTrunc q) := by
      simp only [format_result, if_pos hc]
    rw [h4, pyTrunc_eq_num q h]
  · intro h
    have hc : ¬ q = ((pyTrunc q : ℤ) : ℚ) := fun hx =>
      h ((eq_pyTrunc_iff_den_eq_one q).mp hx)
    simp only [format_result, if_neg hc]

/-- Witness for C9: a fractional float renders with two decimals, an
integer-valued float renders as the plain integer string. -/
theorem formatter_contract_witness :
    format_result (ScopeVal.float (mkRat 5 2)) = "2.50" ∧
      format_result (ScopeVal.float (mkRat 3 1)) = "3" := by
  have h1 := (formatter_contract 0 (mkRat 5 2)).2.2.2 (by decide)
  have h2 := (formatter_contract 0 (mkRat 3 1)).2.2.1 (by decide)
  exact ⟨h1.trans (by decide), h2.trans (by decide)⟩

/-- C10: failed assignment lines are atomic with respect to the scope: an
invalid target produces the error string and leaves the scope unchanged with
no assumption about the left expression (it is never evaluated), and a valid
target whose left expression fails to evaluate produces the empty string and
leaves the scope unchanged, so the target name is never bound. -/
theorem failed_assignment_scope_unchanged (s : Scope) (l : String)
    (eC rC : List Char)
    (hsplit : splitOnEqEq (pyStrip l).data = some (eC, rC)) :
    (pyIsIdentifier (pyStrip (String.mk rC)) = false →
      processLine s l = ("Error: Invalid Name", s)) ∧
      (pyIsIdentifier (pyStrip (String.mk rC)) = true →
        evalStr s (replaceCaret (pyStrip (String.mk eC))) = none →
        processLine s l = ("", s)) := by
  have hne : pyStrip l ≠ "" := pyStrip_ne_of_split l _ hsplit
  constructor
  · intro hid
    simp [processLine, hne, hsplit, hid]
  · intro hid he
    simp [processLine, hne, hsplit, hid, he]

/-- Witness for C10: an invalid target (with an evaluable left side) and a
valid target with a failing left side both leave the scope unchanged. -/
theorem failed_assignment_scope_unchanged_witness :
    processLine builtinScope "5 == 2x" = ("Error: Invalid Name", builtinScope) ∧
      processLine builtinScope "1/0 == z" = ("", builtinScope) :=
  ⟨(failed_assignment_scope_unchanged builtinScope "5 == 2x" ['5', ' ']
      [' ', '2', 'x'] (by decide)).1 (by decide),
    (failed_assignment_scope_unchanged builtinScope "1/0 == z"
      ['1', '/', '0', ' '] [' ', 'z'] (by decide)).2 (by decide) rfl⟩

end Solvee
